import Mathlib

/-!
Verification of the PackageKit `PkSpawn` dispatcher component (`src/pk-spawn.c`).

The C code is shallowly embedded as pure Lean functions over an explicit
`SpawnState` record.  OS interactions (bytes available on the stdout pipe,
`waitpid` results, `write` results, `kill` return values, `g_spawn` results,
GLib source handles) are passed in as explicit oracle arguments: each embedded
function computes exactly what the corresponding C function computes from
those results.  On top of the per-function embeddings, a labelled small-step
machine (`mstep`) composes the functions with the GLib main-loop behaviour
(periodic poll source, one-shot SIGKILL timer, the nested `exit_loop`) so that
temporal claims about executions can be stated as trace properties.
-/

/-- The `PkSpawnExitType` enumeration from `pk-spawn.h` (closed set named in
the spec section 3). -/
inductive PkSpawnExitType where
  | success
  | failed
  | sigquit
  | sigkill
  | dispatcherExit
  | dispatcherChanged
  | unknown
deriving DecidableEq, Repr

/-- What a caller thread is currently blocked on, used by the machine to model
the nested `g_main_loop_run` in `pk_spawn_exit`: `exitWait` is a top-level
`pk_spawn_exit` call blocked on `exit_loop`; `launchWait` is a `pk_spawn_argv`
call blocked inside its internal `pk_spawn_exit` (change-of-dispatcher path),
remembering the arguments still needed for the respawn. -/
inductive PendingOp where
  | idle
  | exitWait
  | launchWait (argv : List (List Char)) (envp : Option (List (List Char)))
deriving DecidableEq, Repr

/-- The `PkSpawnPrivate` state (plus main-loop bookkeeping and history
variables).  Fields up to `last_envp` are the fields of `PkSpawnPrivate`;
`loop_running` is the state of the `exit_loop` GMainLoop; `pending` records a
blocked caller; `poll_alive` / `kill_alive` record whether the GLib timeout
source behind `poll_id` / `kill_id` still exists (a GSource is destroyed when
its callback returns FALSE, without the id field being cleared);
`sigquit_sent` / `sigkill_sent` are history (ghost) variables recording that
the `kill` syscall was invoked with SIGQUIT / SIGKILL. -/
structure SpawnState where
  child_pid : Int
  stdin_fd : Int
  stdout_fd : Int
  poll_id : Nat
  kill_id : Nat
  finished : Bool
  is_sending_exit : Bool
  is_changing_dispatcher : Bool
  exit : PkSpawnExitType
  stdout_buf : List Char
  last_argv0 : Option (List Char)
  last_envp : Option (List (List Char))
  loop_running : Bool
  pending : PendingOp
  poll_alive : Bool
  kill_alive : Bool
  sigquit_sent : Bool
  sigkill_sent : Bool
deriving DecidableEq, Repr

/-- The Linux value of the `EINVAL` errno constant compared against by
`pk_spawn_kill` and `pk_spawn_sigkill_cb`. -/
def EINVAL : Int := 22

/-- The Linux value of the `EPERM` errno constant compared against by
`pk_spawn_kill` and `pk_spawn_sigkill_cb`. -/
def EPERM : Int := 1

/-- `PK_SPAWN_POLL_DELAY`: period of the drain/reap poll tick, in ms. -/
def PK_SPAWN_POLL_DELAY : Nat := 50

/-- `PK_SPAWN_SIGKILL_DELAY`: delay of the one-shot SIGQUIT-to-SIGKILL
escalation timer, in ms. -/
def PK_SPAWN_SIGKILL_DELAY : Nat := 500

/-- `WEXITSTATUS` of a `waitpid` status word: bits 8..15. -/
def wexitstatus (status : Nat) : Nat := status / 256 % 256

/-- Modelled from the spec: `egg_strequal` from `egg-string.c` (that file is
not among the sources), applied to the nullable `last_argv0` and a non-null
string; an absent string compares unequal to everything, matching the spec's
"Set when a helper was started; used by reuse check". -/
def egg_strequal (a : Option (List Char)) (b : List Char) : Bool :=
  match a with
  | none => false
  | some a => a = b

/-- Modelled from the spec: `egg_strvequal` from `egg-string.c` (not among the
sources): element-wise, order-sensitive equality of environment vectors where
absent equals absent only and absent differs from present (spec section 9,
"Envp equality"). -/
def egg_strvequal (a b : Option (List (List Char))) : Bool :=
  match a, b with
  | none, none => true
  | some a, some b => a = b
  | _, _ => false

/-- `g_strsplit (str, "\n", 0)` on a NUL-free string: split on every newline,
keeping empty segments; the last segment is the trailing text after the last
newline (possibly empty). -/
def splitNl : List Char → List (List Char)
  | [] => [[]]
  | c :: cs =>
    let r := splitNl cs
    if c = '\n' then [] :: r
    else (c :: r.headD []) :: r.tail

/-- Re-attach the terminating newline to each complete line: the byte content
that `pk_spawn_emit_whole_lines` erases from the front of the buffer. -/
def joinNl (ls : List (List Char)) : List Char :=
  (ls.map (fun l => l ++ ['\n'])).flatten

/-- `pk_spawn_read_fd_into_buffer`: repeated non-blocking reads append every
available byte (the oracle `readBytes`) to the accumulating buffer. -/
def pk_spawn_read_fd_into_buffer (buf readBytes : List Char) : List Char :=
  buf ++ readBytes

/-- `pk_spawn_emit_whole_lines`: on a non-empty buffer, split on newline, emit
every segment except the last as a line event, and erase from the front of the
buffer the summed byte count of the emitted lines plus one newline each.
Returns (emitted lines, remaining buffer); the C boolean return value is not
inspected by the caller and is dropped. -/
def pk_spawn_emit_whole_lines (buf : List Char) : List (List Char) × List Char :=
  if buf = [] then ([], buf)
  else
    let lines := splitNl buf
    let emitted := lines.dropLast
    let bytesProcessed := (emitted.map (fun l => l.length + 1)).sum
    (emitted, buf.drop bytesProcessed)

/-- Result of one poll tick (`pk_spawn_check_child`): updated state, the line
events emitted, the exit event (present exactly when the child was reaped),
and the boolean the callback returns to GLib (TRUE keeps the source). -/
structure TickResult where
  state : SpawnState
  lines : List (List Char)
  exitEvent : Option PkSpawnExitType
  keep : Bool
deriving DecidableEq, Repr

/-- `pk_spawn_check_child`: the 50 ms poll callback.  `readBytes` is what the
non-blocking reads return; `wstatus` is `none` when `waitpid (child, WNOHANG)`
does not report the child as exited, and `some status` (the raw status word)
when it does.  Mirrors lines 149-221 of `pk-spawn.c`: the double-finish guard,
drain and line emission, resource close, the exit-code classification guarded
on `unknown`, cancelling the SIGKILL timer, quitting `exit_loop` with the
dispatcher reclassification, and emitting the exit event. -/
def pk_spawn_check_child (s : SpawnState) (readBytes : List Char)
    (wstatus : Option Nat) : TickResult :=
  if s.finished then ⟨s, [], none, false⟩
  else
    let buf0 := pk_spawn_read_fd_into_buffer s.stdout_buf readBytes
    let er := pk_spawn_emit_whole_lines buf0
    let s := { s with stdout_buf := er.2 }
    match wstatus with
    | none => ⟨s, er.1, none, true⟩
    | some status =>
      let s := { s with poll_id := 0 }
      let s := { s with stdin_fd := -1, stdout_fd := -1, child_pid := -1 }
      let s :=
        if wexitstatus status > 0 then
          if s.exit = PkSpawnExitType.unknown then
            { s with exit := PkSpawnExitType.failed }
          else s
        else
          if s.exit = PkSpawnExitType.unknown then
            { s with exit := PkSpawnExitType.success }
          else s
      let s := { s with finished := true }
      let s := { s with kill_id := 0 }
      let s :=
        if s.loop_running then
          let s := { s with loop_running := false }
          if s.is_changing_dispatcher then
            { s with exit := PkSpawnExitType.dispatcherChanged }
          else if s.is_sending_exit then
            { s with exit := PkSpawnExitType.dispatcherExit }
          else s
        else s
      ⟨s, er.1, some s.exit, false⟩

/-- `pk_spawn_kill`: refuse after `finished`; assign `exit := sigquit`
(unconditionally in the code, despite its comment); send SIGQUIT, whose result
as read back by the code is the oracle `retval`; abort on `EINVAL`/`EPERM`;
otherwise install the 500 ms SIGKILL timer whose GLib handle is the oracle
`timerId`.  Returns (new state, boolean result). -/
def pk_spawn_kill (s : SpawnState) (retval : Int) (timerId : Nat) :
    SpawnState × Bool :=
  if s.finished then (s, false)
  else
    let s := { s with exit := PkSpawnExitType.sigquit }
    if retval = EINVAL then (s, false)
    else if retval = EPERM then (s, false)
    else ({ s with kill_id := timerId }, true)

/-- `pk_spawn_sigkill_cb`: the 500 ms timer callback.  If already finished it
does nothing; otherwise it assigns `exit := sigkill` (again unconditionally)
and sends SIGKILL (`retval` is the result the code reads back; every branch
only logs).  The callback always returns FALSE so the timer never rearms. -/
def pk_spawn_sigkill_cb (s : SpawnState) (retval : Int) : SpawnState × Bool :=
  if s.finished then (s, false)
  else
    let s := { s with exit := PkSpawnExitType.sigkill }
    let _ := retval
    (s, false)

/-- `pk_spawn_send_stdin`: fails when the child has already finished;
otherwise writes `command ++ "\n"` and succeeds iff the write reported the
full length (oracle `wroteAll`).  No modelled state changes. -/
def pk_spawn_send_stdin (s : SpawnState) (command : List Char)
    (wroteAll : Bool) : Bool :=
  if s.finished then false
  else
    let _ := command
    wroteAll

/-- The literal command written by `pk_spawn_exit` (before the appended
newline). -/
def exitCmd : List Char := ['e', 'x', 'i', 't']

/-- `g_strjoinv ("\t", v)`: join strings with a tab separator. -/
def tabJoin (v : List (List Char)) : List Char :=
  List.intercalate ['\t'] v

/-- Oracle results consumed by the spawn part of `pk_spawn_argv`:
`res = some (pid, stdin fd, stdout fd)` when `g_spawn_async_with_pipes`
succeeds, `none` when it fails (in which case it writes none of the out
parameters); `pollId` is the GLib handle of the freshly added poll source. -/
structure SpawnOracle where
  res : Option (Int × Int × Int)
  pollId : Nat
deriving DecidableEq, Repr

/-- Outcome of the reuse decision in `pk_spawn_argv` (lines 393-422):
`reused` means the command was written to the running dispatcher and the call
returned TRUE with no respawn; `blocked` means the change-of-dispatcher path
wrote "exit" successfully and is now blocked in the nested main loop (the
state carries the flags set so far); `spawnNow` means execution proceeds
directly to the respawn code. -/
inductive ArgvBeginRes where
  | reused
  | blocked (s : SpawnState)
  | spawnNow (s : SpawnState)
deriving DecidableEq, Repr

/-- The reuse decision of `pk_spawn_argv`: if a child is running
(`stdin_fd != -1`) and `argv[0]` matches `last_argv0` and `envp` matches
`last_envp`, write the tab-joined `argv[1..]` to its stdin (`reuseWroteAll` is
the write result) and return TRUE on success; on any mismatch or a failed
write, set `is_changing_dispatcher` and run `pk_spawn_exit` inline: if that
write of "exit" (result `exitWroteAll`) succeeds the call blocks on the nested
loop, otherwise execution falls through to the respawn immediately. -/
def pk_spawn_argv_begin (s : SpawnState) (argv : List (List Char))
    (envp : Option (List (List Char))) (reuseWroteAll exitWroteAll : Bool) :
    ArgvBeginRes :=
  if s.stdin_fd ≠ -1 then
    let sigMatch := egg_strequal s.last_argv0 (argv.headD []) &&
      egg_strvequal s.last_envp envp
    if sigMatch && pk_spawn_send_stdin s (tabJoin argv.tail) reuseWroteAll then
      ArgvBeginRes.reused
    else
      let s := { s with is_changing_dispatcher := true }
      if s.is_sending_exit then
        ArgvBeginRes.spawnNow { s with is_changing_dispatcher := false }
      else
        let s := { s with is_sending_exit := true }
        if pk_spawn_send_stdin s exitCmd exitWroteAll then
          ArgvBeginRes.blocked { s with loop_running := true }
        else
          ArgvBeginRes.spawnNow
            { s with is_sending_exit := false, is_changing_dispatcher := false }
  else
    ArgvBeginRes.spawnNow s

/-- The respawn part of `pk_spawn_argv` (lines 424-469): reset `finished`,
spawn (the renice from `BackendSpawnNiceValue` touches no modelled state), on
spawn failure return FALSE with `last_argv0` / `last_envp` untouched; on
success save them, make stdout non-blocking, and install the poll source —
after the fatal `egg_error` sanity check that no poll source is already
installed, modelled as `none` (the program aborts). -/
def pk_spawn_argv_spawn (s : SpawnState) (argv : List (List Char))
    (envp : Option (List (List Char))) (o : SpawnOracle) :
    Option (SpawnState × Bool) :=
  let s := { s with finished := false }
  match o.res with
  | none => some (s, false)
  | some pio =>
    let s := { s with child_pid := pio.1, stdin_fd := pio.2.1, stdout_fd := pio.2.2 }
    let s := { s with last_argv0 := some (argv.headD []), last_envp := envp }
    if s.poll_id ≠ 0 then none
    else some ({ s with poll_id := o.pollId }, true)

/-- `pk_spawn_init`: the freshly constructed `PkSpawn` object. -/
def pk_spawn_init : SpawnState :=
  { child_pid := -1
    stdin_fd := -1
    stdout_fd := -1
    poll_id := 0
    kill_id := 0
    finished := false
    is_sending_exit := false
    is_changing_dispatcher := false
    exit := PkSpawnExitType.unknown
    stdout_buf := []
    last_argv0 := none
    last_envp := none
    loop_running := false
    pending := PendingOp.idle
    poll_alive := false
    kill_alive := false
    sigquit_sent := false
    sigkill_sent := false }

/-- Observable output of one machine step: the return value of a public call
that completed during the step, the line events, the exit event, whether the
step serviced the request by reusing the running dispatcher, and whether it
ran the respawn code (`g_spawn_async_with_pipes` was invoked). -/
structure StepOut where
  ret : Option Bool := none
  lines : List (List Char) := []
  exitEvent : Option PkSpawnExitType := none
  reusedDispatcher : Bool := false
  spawned : Bool := false
deriving DecidableEq, Repr

/-- Events of the single-threaded event-loop machine.  Each label carries the
oracle results the corresponding code consumes: write results, signal-send
results, spawn results, fresh GLib source handles, bytes read, `waitpid`
results. -/
inductive Label where
  | launch (argv : List (List Char)) (envp : Option (List (List Char)))
      (reuseWroteAll exitWroteAll : Bool) (o : SpawnOracle)
  | launchResume (o : SpawnOracle)
  | killOp (retval : Int) (timerId : Nat)
  | sigkillFire (retval : Int)
  | exitCall (wroteAll : Bool)
  | exitReturn
  | tick (readBytes : List Char) (wstatus : Option Nat)
deriving DecidableEq, Repr

/-- One step of the event-loop machine.  `launch` / `killOp` / `exitCall` are
public calls (only possible while no caller is blocked, except `killOp` which
GLib callbacks may issue at any time); `tick` fires the poll source,
`sigkillFire` the SIGKILL timer (each only while its GSource exists);
`exitReturn` (resp. `launchResume`) is the return of a blocked
`pk_spawn_exit` (resp. the rest of a blocked `pk_spawn_argv`) once the reap
path has quit the nested main loop.  `none` means the step is not enabled, or
the program aborted via `egg_error`. -/
def mstep (s : SpawnState) : Label → Option (SpawnState × StepOut)
  | Label.launch argv envp reuseW exitW o =>
    if s.pending ≠ PendingOp.idle then none
    else if argv.isEmpty then none
    else
      match pk_spawn_argv_begin s argv envp reuseW exitW with
      | ArgvBeginRes.reused =>
        some (s, { ret := some true, reusedDispatcher := true })
      | ArgvBeginRes.blocked s1 =>
        some ({ s1 with pending := PendingOp.launchWait argv envp }, {})
      | ArgvBeginRes.spawnNow s1 =>
        match pk_spawn_argv_spawn s1 argv envp o with
        | none => none
        | some pr =>
          let s2 := if pr.2 then { pr.1 with poll_alive := true } else pr.1
          some (s2, { ret := some pr.2, spawned := true })
  | Label.launchResume o =>
    match s.pending with
    | PendingOp.launchWait argv envp =>
      if s.loop_running then none
      else
        let s1 := { s with is_sending_exit := false,
                           is_changing_dispatcher := false,
                           pending := PendingOp.idle }
        match pk_spawn_argv_spawn s1 argv envp o with
        | none => none
        | some pr =>
          let s2 := if pr.2 then { pr.1 with poll_alive := true } else pr.1
          some (s2, { ret := some pr.2, spawned := true })
    | _ => none
  | Label.killOp retval timerId =>
    let pr := pk_spawn_kill s retval timerId
    let s1 := if s.finished then pr.1 else { pr.1 with sigquit_sent := true }
    let s1 := if pr.2 then { s1 with kill_alive := true } else s1
    some (s1, { ret := some pr.2 })
  | Label.sigkillFire retval =>
    if s.kill_alive then
      let pr := pk_spawn_sigkill_cb s retval
      let s1 := { pr.1 with kill_alive := false }
      let s1 := if s.finished then s1 else { s1 with sigkill_sent := true }
      some (s1, {})
    else none
  | Label.exitCall wroteAll =>
    if s.pending ≠ PendingOp.idle then none
    else if s.is_sending_exit then some (s, { ret := some false })
    else
      let s1 := { s with is_sending_exit := true }
      if pk_spawn_send_stdin s1 exitCmd wroteAll then
        some ({ s1 with loop_running := true, pending := PendingOp.exitWait }, {})
      else some ({ s1 with is_sending_exit := false }, { ret := some false })
  | Label.exitReturn =>
    if s.pending = PendingOp.exitWait ∧ s.loop_running = false then
      some ({ s with is_sending_exit := false, pending := PendingOp.idle },
        { ret := some true })
    else none
  | Label.tick readBytes wstatus =>
    if s.poll_alive then
      let r := pk_spawn_check_child s readBytes wstatus
      let s1 := { r.state with poll_alive := r.keep }
      let s1 :=
        if s.finished = false ∧ wstatus.isSome then { s1 with kill_alive := false }
        else s1
      some (s1, { lines := r.lines, exitEvent := r.exitEvent })
    else none

/-- Run a list of labelled steps from a state; `none` when some step is not
enabled or aborted. -/
def runTrace : SpawnState → List Label → Option SpawnState
  | s, [] => some s
  | s, l :: ls =>
    match mstep s l with
    | none => none
    | some pr => runTrace pr.1 ls

/-- Is this label a firing of the SIGKILL escalation timer? -/
def isFireLabel : Label → Bool
  | Label.sigkillFire _ => true
  | _ => false

/-- Is this label a `pk_spawn_kill` call? -/
def isKillLabel : Label → Bool
  | Label.killOp _ _ => true
  | _ => false

/-- Is this label part of a `pk_spawn_argv` call? -/
def isLaunchLabel : Label → Bool
  | Label.launch _ _ _ _ _ => true
  | Label.launchResume _ => true
  | _ => false

/-- Number of SIGKILL-timer firings in a trace. -/
def countFire (tr : List Label) : Nat := tr.countP isFireLabel

/-- Number of `pk_spawn_kill` calls in a trace. -/
def countKill (tr : List Label) : Nat := tr.countP isKillLabel

/-- `splitNl` always produces at least one segment. -/
theorem splitNl_ne_nil (cs : List Char) : splitNl cs ≠ [] := by
  induction cs with
  | nil => simp [splitNl]
  | cons c cs ih =>
    simp only [splitNl]
    split <;> simp

/-- No segment produced by `splitNl` contains a newline. -/
theorem mem_splitNl_no_nl (cs : List Char) :
    ∀ l ∈ splitNl cs, '\n' ∉ l := by
  induction cs with
  | nil => intro l hl; simp [splitNl] at hl; simp [hl]
  | cons c cs ih =>
    intro l hl
    cases h : splitNl cs with
    | nil => exact absurd h (splitNl_ne_nil cs)
    | cons l0 ls =>
      simp only [splitNl, h, List.headD_cons, List.tail_cons] at hl
      by_cases hc : c = '\n'
      · rw [if_pos hc] at hl
        rcases List.mem_cons.mp hl with h1 | h1
        · simp [h1]
        · exact ih l (h ▸ h1)
      · rw [if_neg hc] at hl
        rcases List.mem_cons.mp hl with h1 | h1
        · subst h1
          intro hmem
          rcases List.mem_cons.mp hmem with h2 | h2
          · exact hc h2.symm
          · exact ih l0 (h ▸ List.mem_cons_self l0 ls) h2
        · exact ih l (h ▸ List.mem_cons_of_mem l0 h1)

/-- The length of the rejoined complete lines is the byte count erased by
`pk_spawn_emit_whole_lines`. -/
theorem joinNl_length (ls : List (List Char)) :
    (joinNl ls).length = (ls.map (fun l => l.length + 1)).sum := by
  induction ls with
  | nil => simp [joinNl]
  | cons l ls ih => simp [joinNl] at ih ⊢; omega

/-- The default-valued last element of a non-empty list is an element. -/
theorem getLastD_mem {α : Type} (l : List α) (d : α) (h : l ≠ []) :
    l.getLastD d ∈ l := by
  induction l generalizing d with
  | nil => exact absurd rfl h
  | cons a l ih =>
    cases l with
    | nil => simp
    | cons b l' =>
      have hm := ih a (by simp)
      simpa using List.mem_cons_of_mem a hm

/-- Splitting on newlines and rejoining all but the last segment with their
newlines, followed by the last segment, reconstructs the input. -/
theorem splitNl_reconstruct (cs : List Char) :
    joinNl (splitNl cs).dropLast ++ (splitNl cs).getLastD [] = cs := by
  induction cs with
  | nil => simp [splitNl, joinNl]
  | cons c cs ih =>
    cases h : splitNl cs with
    | nil => exact absurd h (splitNl_ne_nil cs)
    | cons l0 ls =>
      rw [h] at ih
      simp only [splitNl, h, List.headD_cons, List.tail_cons]
      by_cases hc : c = '\n'
      · subst hc
        rw [if_pos rfl]
        simp only [List.dropLast_cons₂, List.getLastD_cons, joinNl, List.map_cons,
          List.flatten_cons, List.nil_append, List.cons_append, List.singleton_append,
          List.append_assoc] at ih ⊢
        rw [ih]
      · rw [if_neg hc]
        cases ls with
        | nil =>
          simp only [List.dropLast_single, joinNl, List.map_nil, List.flatten_nil,
            List.getLastD_cons, List.getLastD_nil, List.nil_append] at ih ⊢
          rw [ih]
        | cons l1 ls2 =>
          simp only [List.dropLast_cons₂, List.getLastD_cons, joinNl, List.map_cons,
            List.flatten_cons, List.cons_append, List.singleton_append,
            List.append_assoc] at ih ⊢
          rw [ih]

/-- Claim C6: for every content of the stdout buffer, the drain step emits one
line event per complete newline-terminated line (every split segment except
the last, in order: the emitted lines followed by their newlines reconstruct
the consumed prefix of the buffer, and no emitted line contains a newline),
erases from the front of the buffer exactly the total byte count of the
emitted lines including their terminating newlines, and leaves the trailing
partial line (newline-free) in the buffer. -/
theorem claim_C6 (buf : List Char) :
    joinNl (pk_spawn_emit_whole_lines buf).1 ++ (pk_spawn_emit_whole_lines buf).2 = buf ∧
    (∀ l ∈ (pk_spawn_emit_whole_lines buf).1, '\n' ∉ l) ∧
    '\n' ∉ (pk_spawn_emit_whole_lines buf).2 ∧
    (pk_spawn_emit_whole_lines buf).2 =
      buf.drop (joinNl (pk_spawn_emit_whole_lines buf).1).length := by
  by_cases hb : buf = []
  · subst hb
    simp [pk_spawn_emit_whole_lines, joinNl]
  · have hE : (pk_spawn_emit_whole_lines buf).1 = (splitNl buf).dropLast := by
      simp [pk_spawn_emit_whole_lines, hb]
    have hR : (pk_spawn_emit_whole_lines buf).2 =
        buf.drop ((((splitNl buf).dropLast).map (fun l => l.length + 1)).sum) := by
      simp [pk_spawn_emit_whole_lines, hb]
    have hrec := splitNl_reconstruct buf
    have hlen := joinNl_length (splitNl buf).dropLast
    have hdrop : buf.drop ((((splitNl buf).dropLast).map (fun l => l.length + 1)).sum)
        = (splitNl buf).getLastD [] := by
      have h2 := List.drop_left (joinNl (splitNl buf).dropLast) ((splitNl buf).getLastD [])
      rw [hrec, hlen] at h2
      exact h2
    refine ⟨?_, ?_, ?_, ?_⟩
    · rw [hE, hR, hdrop]
      exact hrec
    · rw [hE]
      intro l hl
      exact mem_splitNl_no_nl buf l (List.dropLast_subset _ hl)
    · rw [hR, hdrop]
      exact mem_splitNl_no_nl buf _ (getLastD_mem _ _ (splitNl_ne_nil buf))
    · rw [hE, hR, hlen]

/-- Claim C1: on the reap path (poll tick detecting the child exited), when no
graceful-exit wait gate is active, `exit` is set to `success` exactly when the
child's exit status code (`WEXITSTATUS`) is 0 and to `failed` for every
non-zero code — but only when `exit` was still `unknown`; an already-set
classification is kept. -/
theorem claim_C1 (s : SpawnState) (readBytes : List Char) (status : Nat)
    (hfin : s.finished = false) (hloop : s.loop_running = false) :
    (pk_spawn_check_child s readBytes (some status)).state.exit =
      (if s.exit = PkSpawnExitType.unknown then
        (if wexitstatus status = 0 then PkSpawnExitType.success
         else PkSpawnExitType.failed)
       else s.exit) := by
  simp only [pk_spawn_check_child, hfin, Bool.false_eq_true, if_false]
  split_ifs <;> simp_all

/-- A running-child state used to instantiate the claim theorems: a fresh
spawner after a successful launch. -/
def c1s : SpawnState :=
  { pk_spawn_init with
    child_pid := 7
    stdin_fd := 3
    stdout_fd := 4
    poll_id := 2
    poll_alive := true }

/-- Claim C1 witness: the theorem applied to a concrete running state and a
concrete non-zero exit status. -/
theorem claim_C1_witness :
    c1s.finished = false ∧ c1s.loop_running = false ∧
    (pk_spawn_check_child c1s [] (some 256)).state.exit =
      (if c1s.exit = PkSpawnExitType.unknown then
        (if wexitstatus 256 = 0 then PkSpawnExitType.success
         else PkSpawnExitType.failed)
       else c1s.exit) :=
  ⟨rfl, rfl, claim_C1 c1s [] 256 rfl rfl⟩

/-- Claim C4: on reap with the graceful-exit wait gate active, the
classification carried by the emitted exit event is rewritten after the
default success/failed assignment: `dispatcherChanged` when
`is_changing_dispatcher` is set, else `dispatcherExit` when `is_sending_exit`
is set, and the emitted exit event carries exactly that final value. -/
theorem claim_C4 (s : SpawnState) (readBytes : List Char) (status : Nat)
    (hfin : s.finished = false) (hloop : s.loop_running = true) :
    (pk_spawn_check_child s readBytes (some status)).state.exit =
      (if s.is_changing_dispatcher then PkSpawnExitType.dispatcherChanged
       else if s.is_sending_exit then PkSpawnExitType.dispatcherExit
       else if s.exit = PkSpawnExitType.unknown then
         (if wexitstatus status = 0 then PkSpawnExitType.success
          else PkSpawnExitType.failed)
       else s.exit) ∧
    (pk_spawn_check_child s readBytes (some status)).exitEvent =
      some (pk_spawn_check_child s readBytes (some status)).state.exit := by
  simp only [pk_spawn_check_child, hfin, Bool.false_eq_true, if_false]
  split_ifs <;> simp_all

/-- A state blocked in `pk_spawn_exit` waiting for the reap, used to
instantiate claim C4. -/
def c4s : SpawnState :=
  { pk_spawn_init with
    child_pid := 7
    stdin_fd := 3
    stdout_fd := 4
    poll_id := 2
    poll_alive := true
    is_sending_exit := true
    loop_running := true
    pending := PendingOp.exitWait }

/-- Claim C4 witness: the theorem applied to a concrete state blocked in
`pk_spawn_exit`, reaping a child that exited with status 0. -/
theorem claim_C4_witness :
    c4s.finished = false ∧ c4s.loop_running = true ∧
    ((pk_spawn_check_child c4s [] (some 0)).state.exit =
      (if c4s.is_changing_dispatcher then PkSpawnExitType.dispatcherChanged
       else if c4s.is_sending_exit then PkSpawnExitType.dispatcherExit
       else if c4s.exit = PkSpawnExitType.unknown then
         (if wexitstatus 0 = 0 then PkSpawnExitType.success
          else PkSpawnExitType.failed)
       else c4s.exit) ∧
     (pk_spawn_check_child c4s [] (some 0)).exitEvent =
       some (pk_spawn_check_child c4s [] (some 0)).state.exit) :=
  ⟨rfl, rfl, claim_C4 c4s [] 0 rfl rfl⟩

/-- A running-child state whose `exit` classification was left at `success`
by a previous child's reap (launch does not reset it; see claim C10): the
failing input for claim C3. -/
def c3s : SpawnState :=
  { pk_spawn_init with
    child_pid := 7
    stdin_fd := 3
    stdout_fd := 4
    poll_id := 2
    poll_alive := true
    exit := PkSpawnExitType.success }

/-- Claim C3 evaluation at the failing input: `pk_spawn_kill` on an unfinished
child whose `exit` classification is already `success` (not `unknown`)
overwrites it to `sigquit`, although the claim — and the code's own comment
"we won't overwrite this if not unknown" — say an already-set classification
is not overwritten.  The assignment at line 274 of `pk-spawn.c` is
unconditional. -/
theorem claim_C3_code_eval :
    c3s.finished = false ∧ c3s.exit = PkSpawnExitType.success ∧
    (pk_spawn_kill c3s 0 5).1.exit = PkSpawnExitType.sigquit ∧
    (pk_spawn_kill c3s 0 5).2 = true := by decide

/-- Claim C5: when the `kill` syscall sending SIGQUIT reports `EINVAL` or
`EPERM` (as the code reads the result back), `pk_spawn_kill` returns failure
and does not install the 500 ms SIGKILL escalation timer: neither the
`kill_id` field nor the set of live timer sources changes. -/
theorem claim_C5 (s : SpawnState) (retval : Int) (timerId : Nat)
    (s1 : SpawnState) (out : StepOut)
    (hfin : s.finished = false) (herr : retval = EINVAL ∨ retval = EPERM)
    (hstep : mstep s (Label.killOp retval timerId) = some (s1, out)) :
    out.ret = some false ∧ s1.kill_id = s.kill_id ∧
    s1.kill_alive = s.kill_alive := by
  rcases herr with rfl | rfl <;>
    simp_all [mstep, pk_spawn_kill, EINVAL, EPERM] <;>
    obtain ⟨rfl, rfl⟩ := hstep <;> simp_all

/-- The state produced by the claim C5 witness step. -/
def c5s1 : SpawnState :=
  { c1s with
    exit := PkSpawnExitType.sigquit
    sigquit_sent := true }

/-- The output produced by the claim C5 witness step. -/
def c5out : StepOut := { ret := some false }

/-- Claim C5 witness: the theorem applied to a concrete running state with
the SIGQUIT send reporting `EINVAL`. -/
theorem claim_C5_witness :
    c1s.finished = false ∧ ((22 : Int) = EINVAL ∨ (22 : Int) = EPERM) ∧
    (c5out.ret = some false ∧ c5s1.kill_id = c1s.kill_id ∧
     c5s1.kill_alive = c1s.kill_alive) :=
  ⟨rfl, Or.inl rfl, claim_C5 c1s 22 9 c5s1 c5out rfl (Or.inl rfl) (by decide)⟩

/-- Inversion of a `killOp` step: which fields it preserves, and how it
updates the SIGQUIT history and the escalation-timer source. -/
theorem mstep_killOp_inv {s : SpawnState} {rv : Int} {t : Nat}
    {s1 : SpawnState} {out : StepOut}
    (h : mstep s (Label.killOp rv t) = some (s1, out)) :
    s1.pending = s.pending ∧ s1.loop_running = s.loop_running ∧
    s1.finished = s.finished ∧ s1.sigkill_sent = s.sigkill_sent ∧
    s1.poll_alive = s.poll_alive ∧ s1.is_sending_exit = s.is_sending_exit ∧
    (s.sigquit_sent = true → s1.sigquit_sent = true) ∧
    (s1.kill_alive = true → s.kill_alive = true ∨ s.finished = false) ∧
    (s1.kill_alive = true → s.kill_alive = false → s1.sigquit_sent = true) ∧
    (s1.sigquit_sent = true → s.sigquit_sent = true ∨ s.finished = false) ∧
    (s.finished = true → s1 = s) := by
  simp only [mstep, pk_spawn_kill] at h
  split_ifs at h <;>
    simp only [Option.some.injEq, Prod.mk.injEq] at h <;>
    obtain ⟨h1, h2⟩ := h <;> subst h1 <;> subst h2 <;> simp_all

/-- Inversion of a `sigkillFire` step: the timer source must be live, is
consumed by the step, and SIGKILL history is updated only when the child is
not yet finished. -/
theorem mstep_fire_inv {s : SpawnState} {rv : Int}
    {s1 : SpawnState} {out : StepOut}
    (h : mstep s (Label.sigkillFire rv) = some (s1, out)) :
    s.kill_alive = true ∧ s1.kill_alive = false ∧
    s1.pending = s.pending ∧ s1.loop_running = s.loop_running ∧
    s1.finished = s.finished ∧ s1.is_sending_exit = s.is_sending_exit ∧
    s1.poll_alive = s.poll_alive ∧ s1.sigquit_sent = s.sigquit_sent ∧
    (s1.sigkill_sent = true → s.sigkill_sent = true ∨ s.finished = false) ∧
    (s.sigkill_sent = true → s1.sigkill_sent = true) ∧
    (s.finished = true → s1 = { s with kill_alive := false }) := by
  simp only [mstep, pk_spawn_sigkill_cb] at h
  split_ifs at h <;>
    simp only [Option.some.injEq, Prod.mk.injEq] at h <;>
    first
    | (obtain ⟨h1, h2⟩ := h; subst h1; subst h2; simp_all)
    | simp_all

/-- Inversion of an `exitCall` step (`pk_spawn_exit` up to its potential
blocking point): the caller must be free, and the call either blocks after a
successful write of "exit" or completes immediately with failure. -/
theorem mstep_exitCall_inv {s : SpawnState} {w : Bool}
    {s1 : SpawnState} {out : StepOut}
    (h : mstep s (Label.exitCall w) = some (s1, out)) :
    s.pending = PendingOp.idle ∧
    s1.finished = s.finished ∧ s1.kill_alive = s.kill_alive ∧
    s1.kill_id = s.kill_id ∧ s1.sigquit_sent = s.sigquit_sent ∧
    s1.sigkill_sent = s.sigkill_sent ∧ s1.poll_alive = s.poll_alive ∧
    s1.exit = s.exit ∧
    (s.loop_running = true → s1.loop_running = true) ∧
    (s1.pending = PendingOp.exitWait →
      s1.loop_running = true ∧ s.is_sending_exit = false ∧
      s.finished = false ∧ w = true) ∧
    (s1.pending ≠ PendingOp.exitWait →
      s1.pending = PendingOp.idle ∧ s1.loop_running = s.loop_running) ∧
    (s.finished = false → s.is_sending_exit = false → w = true →
      s1 = { s with is_sending_exit := true, loop_running := true,
                    pending := PendingOp.exitWait }) ∧
    (s.is_sending_exit = true → s1 = s ∧ out.ret = some false) ∧
    (s.finished = true → s.is_sending_exit = false →
      s1 = s ∧ out.ret = some false) := by
  have hpend : s.pending = PendingOp.idle := by
    by_contra hp
    simp [mstep, hp] at h
  simp only [mstep, pk_spawn_send_stdin, hpend] at h
  split_ifs at h <;>
    simp only [Option.some.injEq, Prod.mk.injEq] at h <;>
    obtain ⟨h1, h2⟩ := h <;> subst h1 <;> subst h2 <;>
    constructor <;>
    simp_all <;>
    (try intro hfalse) <;>
    (cases s; simp_all)

/-- Inversion of an `exitReturn` step: only enabled once the reap path has
quit the nested loop; it clears `is_sending_exit` and reports the successful
write result. -/
theorem mstep_exitReturn_inv {s : SpawnState}
    {s1 : SpawnState} {out : StepOut}
    (h : mstep s Label.exitReturn = some (s1, out)) :
    s.pending = PendingOp.exitWait ∧ s.loop_running = false ∧
    s1 = { s with is_sending_exit := false, pending := PendingOp.idle } ∧
    out = { ret := some true } := by
  simp only [mstep] at h
  split_ifs at h with hg
  simp only [Option.some.injEq, Prod.mk.injEq] at h
  obtain ⟨h1, h2⟩ := h
  subst h1; subst h2
  exact ⟨hg.1, hg.2, rfl, rfl⟩

/-- A tick on an already-finished spawner is the double-reap programmer-error
branch: it only logs and aborts the tick. -/
theorem check_child_finished (s : SpawnState) (rb : List Char)
    (w : Option Nat) (hfin : s.finished = true) :
    pk_spawn_check_child s rb w = ⟨s, [], none, false⟩ := by
  simp [pk_spawn_check_child, hfin]

/-- A tick that does not observe the child exited only drains the buffer. -/
theorem check_child_none_facts (s : SpawnState) (rb : List Char)
    (hfin : s.finished = false) :
    pk_spawn_check_child s rb none =
      ⟨{ s with stdout_buf := (pk_spawn_emit_whole_lines (s.stdout_buf ++ rb)).2 },
       (pk_spawn_emit_whole_lines (s.stdout_buf ++ rb)).1, none, true⟩ := by
  simp [pk_spawn_check_child, hfin, pk_spawn_read_fd_into_buffer]

/-- Field bookkeeping of a reap: which fields the reap path forces and which
it leaves untouched (the final `exit` value is described by claims C1/C4). -/
theorem check_child_reap_facts (s : SpawnState) (rb : List Char) (st : Nat)
    (hfin : s.finished = false) :
    (pk_spawn_check_child s rb (some st)).state.pending = s.pending ∧
    (pk_spawn_check_child s rb (some st)).state.poll_alive = s.poll_alive ∧
    (pk_spawn_check_child s rb (some st)).state.kill_alive = s.kill_alive ∧
    (pk_spawn_check_child s rb (some st)).state.sigquit_sent = s.sigquit_sent ∧
    (pk_spawn_check_child s rb (some st)).state.sigkill_sent = s.sigkill_sent ∧
    (pk_spawn_check_child s rb (some st)).state.is_sending_exit = s.is_sending_exit ∧
    (pk_spawn_check_child s rb (some st)).state.is_changing_dispatcher =
      s.is_changing_dispatcher ∧
    (pk_spawn_check_child s rb (some st)).state.finished = true ∧
    (pk_spawn_check_child s rb (some st)).state.loop_running = false ∧
    (pk_spawn_check_child s rb (some st)).state.kill_id = 0 ∧
    (pk_spawn_check_child s rb (some st)).state.poll_id = 0 ∧
    (pk_spawn_check_child s rb (some st)).state.stdin_fd = -1 ∧
    (pk_spawn_check_child s rb (some st)).keep = false := by
  simp only [pk_spawn_check_child, hfin, Bool.false_eq_true, if_false]
  split_ifs <;> simp_all

/-- Inversion of a `tick` step: the poll source must be live; pending callers
and signal history are untouched; the three tick shapes (double-finish abort,
drain-only, reap). -/
theorem mstep_tick_inv {s : SpawnState} {rb : List Char} {w : Option Nat}
    {s1 : SpawnState} {out : StepOut}
    (h : mstep s (Label.tick rb w) = some (s1, out)) :
    s.poll_alive = true ∧
    s1.pending = s.pending ∧ s1.sigquit_sent = s.sigquit_sent ∧
    s1.sigkill_sent = s.sigkill_sent ∧
    s1.is_sending_exit = s.is_sending_exit ∧
    (s1.kill_alive = true → s.kill_alive = true) ∧
    (s.finished = true → s1 = { s with poll_alive := false }) ∧
    (s.finished = false → w = none →
      s1.finished = false ∧ s1.loop_running = s.loop_running ∧
      s1.kill_alive = s.kill_alive ∧ s1.kill_id = s.kill_id ∧
      s1.exit = s.exit ∧ s1.pending = s.pending) ∧
    (s.finished = false → ∀ st, w = some st →
      s1.finished = true ∧ s1.loop_running = false ∧
      s1.kill_alive = false ∧ s1.kill_id = 0) ∧
    (s.loop_running = true → s1.loop_running = false →
      s.finished = false ∧ w.isSome = true ∧ s1.finished = true) := by
  cases hq : s.poll_alive with
  | false => simp [mstep, hq] at h
  | true =>
    simp only [mstep, hq, if_true] at h
    cases hfin : s.finished with
    | true =>
      rw [check_child_finished s rb w hfin] at h
      simp only [hfin, Bool.true_eq_false, false_and, if_false,
        Option.some.injEq, Prod.mk.injEq] at h
      obtain ⟨h1, h2⟩ := h
      subst h1; subst h2
      simp_all
    | false =>
      cases w with
      | none =>
        rw [check_child_none_facts s rb hfin] at h
        simp only [hfin, Option.isSome_none, true_and, Bool.false_eq_true,
          and_false, if_false, Option.some.injEq, Prod.mk.injEq] at h
        obtain ⟨h1, h2⟩ := h
        subst h1; subst h2
        simp_all
      | some st =>
        have hf := check_child_reap_facts s rb st hfin
        simp only [hfin, Option.isSome_some, and_self, if_true,
          Option.some.injEq, Prod.mk.injEq] at h
        obtain ⟨h1, h2⟩ := h
        subst h1; subst h2
        simp_all

/-- The reuse decision succeeds (command written to the running dispatcher,
TRUE returned, no respawn) exactly when a child is running, `argv[0]` and
`envp` match the remembered values, and the stdin write reports the full
length. -/
theorem argv_begin_reused_iff (s : SpawnState) (argv : List (List Char))
    (envp : Option (List (List Char))) (rW eW : Bool)
    (hfin : s.finished = false) :
    pk_spawn_argv_begin s argv envp rW eW = ArgvBeginRes.reused ↔
    (s.stdin_fd ≠ -1 ∧ egg_strequal s.last_argv0 (argv.headD []) = true ∧
     egg_strvequal s.last_envp envp = true ∧ rW = true) := by
  simp only [pk_spawn_argv_begin, pk_spawn_send_stdin, hfin, Bool.false_eq_true,
    if_false]
  split_ifs <;> simp_all

/-- Inversion of the blocked outcome of the reuse decision: exactly the
change-of-dispatcher flags plus the started nested loop. -/
theorem argv_begin_blocked_eq {s : SpawnState} {argv : List (List Char)}
    {envp : Option (List (List Char))} {rW eW : Bool} {s2 : SpawnState}
    (h : pk_spawn_argv_begin s argv envp rW eW = ArgvBeginRes.blocked s2) :
    s2 = { s with is_changing_dispatcher := true, is_sending_exit := true,
                  loop_running := true } ∧
    s.is_sending_exit = false ∧ s.stdin_fd ≠ -1 ∧ s.finished = false ∧
    eW = true := by
  simp only [pk_spawn_argv_begin, pk_spawn_send_stdin] at h
  split_ifs at h <;> simp_all

/-- Inversion of the fall-through-to-respawn outcome of the reuse decision:
only the two dispatcher-change flags can differ from the pre-state. -/
theorem argv_begin_spawnNow_facts {s : SpawnState} {argv : List (List Char)}
    {envp : Option (List (List Char))} {rW eW : Bool} {s2 : SpawnState}
    (h : pk_spawn_argv_begin s argv envp rW eW = ArgvBeginRes.spawnNow s2) :
    s2.exit = s.exit ∧ s2.finished = s.finished ∧ s2.pending = s.pending ∧
    s2.loop_running = s.loop_running ∧ s2.kill_alive = s.kill_alive ∧
    s2.kill_id = s.kill_id ∧ s2.poll_id = s.poll_id ∧
    s2.poll_alive = s.poll_alive ∧ s2.sigquit_sent = s.sigquit_sent ∧
    s2.sigkill_sent = s.sigkill_sent ∧ s2.stdin_fd = s.stdin_fd ∧
    s2.last_argv0 = s.last_argv0 ∧ s2.last_envp = s.last_envp := by
  simp only [pk_spawn_argv_begin, pk_spawn_send_stdin] at h
  split_ifs at h <;> simp_all <;> subst h <;> simp

/-- Inversion of a successful return of the respawn code: `finished` is reset
and neither the exit classification nor the pending/loop/timer state is
touched. -/
theorem argv_spawn_facts {s : SpawnState} {argv : List (List Char)}
    {envp : Option (List (List Char))} {o : SpawnOracle}
    {s2 : SpawnState} {r : Bool}
    (h : pk_spawn_argv_spawn s argv envp o = some (s2, r)) :
    s2.exit = s.exit ∧ s2.finished = false ∧ s2.pending = s.pending ∧
    s2.loop_running = s.loop_running ∧ s2.kill_alive = s.kill_alive ∧
    s2.kill_id = s.kill_id ∧ s2.is_sending_exit = s.is_sending_exit ∧
    s2.is_changing_dispatcher = s.is_changing_dispatcher ∧
    s2.sigquit_sent = s.sigquit_sent ∧ s2.sigkill_sent = s.sigkill_sent ∧
    s2.poll_alive = s.poll_alive := by
  rcases o with ⟨res, pollId⟩
  cases res with
  | none =>
    simp only [pk_spawn_argv_spawn, Option.some.injEq, Prod.mk.injEq] at h
    obtain ⟨h1, h2⟩ := h
    subst h1
    simp
  | some pio =>
    simp only [pk_spawn_argv_spawn] at h
    split_ifs at h <;>
      simp only [Option.some.injEq, Prod.mk.injEq] at h <;>
      obtain ⟨h1, h2⟩ := h <;> subst h1 <;> simp_all

/-- Inversion of a `launch` step: the caller must be free; the exit
classification, SIGKILL timer bookkeeping and signal history are untouched;
afterwards the caller is either done or blocked (with the nested loop
running) in the change-of-dispatcher wait. -/
theorem mstep_launch_inv {s : SpawnState} {argv : List (List Char)}
    {envp : Option (List (List Char))} {rW eW : Bool} {o : SpawnOracle}
    {s1 : SpawnState} {out : StepOut}
    (h : mstep s (Label.launch argv envp rW eW o) = some (s1, out)) :
    s.pending = PendingOp.idle ∧ s1.exit = s.exit ∧
    s1.kill_alive = s.kill_alive ∧ s1.kill_id = s.kill_id ∧
    s1.sigquit_sent = s.sigquit_sent ∧ s1.sigkill_sent = s.sigkill_sent ∧
    (s1.pending = PendingOp.idle ∨
      (s1.pending = PendingOp.launchWait argv envp ∧ s1.loop_running = true)) ∧
    (s.loop_running = true → s1.loop_running = true) := by
  have hpend : s.pending = PendingOp.idle := by
    by_contra hp
    simp [mstep, hp] at h
  by_cases hae : argv.isEmpty
  · simp [mstep, hpend, hae] at h
  · refine ⟨hpend, ?_⟩
    rcases hb : pk_spawn_argv_begin s argv envp rW eW with _ | s2 | s2
    · simp [mstep, hpend, hae, hb] at h
      obtain ⟨h1, h2⟩ := h
      subst h1
      simp [hpend]
    · simp [mstep, hpend, hae, hb] at h
      obtain ⟨h1, h2⟩ := h
      obtain ⟨he, hsnd, hstd, hfin2, heW⟩ := argv_begin_blocked_eq hb
      subst h1
      subst he
      simp
    · rcases hsp : pk_spawn_argv_spawn s2 argv envp o with _ | ⟨s3, r⟩
      · simp [mstep, hpend, hae, hb, hsp] at h
      · simp [mstep, hpend, hae, hb, hsp] at h
        obtain ⟨h1, h2⟩ := h
        subst h1
        have hB := argv_begin_spawnNow_facts hb
        have hS := argv_spawn_facts hsp
        by_cases hr : r = true <;> simp_all

/-- Inversion of a `launchResume` step: only enabled for a launch blocked in
its inner graceful exit once the loop has been quit; it clears the flags,
respawns, and leaves classification, timers and history untouched. -/
theorem mstep_launchResume_inv {s : SpawnState} {o : SpawnOracle}
    {s1 : SpawnState} {out : StepOut}
    (h : mstep s (Label.launchResume o) = some (s1, out)) :
    (∃ argv envp, s.pending = PendingOp.launchWait argv envp) ∧
    s.loop_running = false ∧
    s1.pending = PendingOp.idle ∧ s1.exit = s.exit ∧ s1.finished = false ∧
    s1.loop_running = false ∧
    s1.kill_alive = s.kill_alive ∧ s1.kill_id = s.kill_id ∧
    s1.sigquit_sent = s.sigquit_sent ∧ s1.sigkill_sent = s.sigkill_sent := by
  rcases hp : s.pending with _ | _ | ⟨argv, envp⟩
  · simp [mstep, hp] at h
  · simp [mstep, hp] at h
  · simp only [mstep, hp] at h
    split_ifs at h with hcond
    simp only [Bool.not_eq_true] at hcond
    rcases hsp : pk_spawn_argv_spawn
        { s with is_sending_exit := false, is_changing_dispatcher := false,
                 pending := PendingOp.idle } argv envp o with _ | ⟨s3, r⟩
    · rw [hsp] at h
      simp at h
    · rw [hsp] at h
      simp only [Option.some.injEq, Prod.mk.injEq] at h
      obtain ⟨h1, h2⟩ := h
      subst h1
      have hS := argv_spawn_facts hsp
      refine ⟨⟨argv, envp, rfl⟩, hcond, ?_⟩
      by_cases hr : r = true <;> simp_all

/-- Claim C2 as amended: for a launch on an unfinished spawner, the running
child is reused (command written, call returns TRUE, no respawn) if and only
if a child is currently running (stdin fd present), `argv[0]` equals
`last_argv0`, `envp` is element-wise equal to `last_envp` (absent equals
absent), and the stdin write reports the full length; a reuse leaves the
state untouched, and any mismatch (or failed write) enters the
graceful-exit-then-respawn path. -/
theorem claim_C2 (s : SpawnState) (argv : List (List Char))
    (envp : Option (List (List Char))) (rW eW : Bool) (o : SpawnOracle)
    (s1 : SpawnState) (out : StepOut)
    (hfin : s.finished = false)
    (hstep : mstep s (Label.launch argv envp rW eW o) = some (s1, out)) :
    (out.reusedDispatcher = true ↔
      (s.stdin_fd ≠ -1 ∧ egg_strequal s.last_argv0 (argv.headD []) = true ∧
       egg_strvequal s.last_envp envp = true ∧ rW = true)) ∧
    (out.reusedDispatcher = true → out.spawned = false ∧ s1 = s) ∧
    (s.stdin_fd ≠ -1 → out.reusedDispatcher = false →
      (s1.pending = PendingOp.launchWait argv envp ∧
       s1.is_changing_dispatcher = true) ∨ out.spawned = true) := by
  have hpend : s.pending = PendingOp.idle := (mstep_launch_inv hstep).1
  by_cases hae : argv.isEmpty
  · simp [mstep, hpend, hae] at hstep
  · rcases hb : pk_spawn_argv_begin s argv envp rW eW with _ | s2 | s2
    · simp [mstep, hpend, hae, hb] at hstep
      obtain ⟨h1, h2⟩ := hstep
      subst h1
      subst h2
      have hiff := (argv_begin_reused_iff s argv envp rW eW hfin).mp hb
      refine ⟨by simpa using hiff, fun _ => ⟨rfl, rfl⟩, fun _ hcontra => ?_⟩
      simp at hcontra
    · simp [mstep, hpend, hae, hb] at hstep
      obtain ⟨h1, h2⟩ := hstep
      subst h1
      subst h2
      obtain ⟨he, hsnd, hstd, _, heW⟩ := argv_begin_blocked_eq hb
      subst he
      refine ⟨⟨fun hcontra => by simp at hcontra, fun hrhs => ?_⟩,
        fun hcontra => by simp at hcontra, fun _ _ => Or.inl ⟨by simp, by simp⟩⟩
      have hcr := (argv_begin_reused_iff s argv envp rW eW hfin).mpr hrhs
      rw [hb] at hcr
      simp at hcr
    · rcases hsp : pk_spawn_argv_spawn s2 argv envp o with _ | ⟨s3, r⟩
      · simp [mstep, hpend, hae, hb, hsp] at hstep
      · simp [mstep, hpend, hae, hb, hsp] at hstep
        obtain ⟨h1, h2⟩ := hstep
        subst h1
        subst h2
        refine ⟨⟨fun hcontra => by simp at hcontra, fun hrhs => ?_⟩,
          fun hcontra => by simp at hcontra, fun _ _ => Or.inr (by simp)⟩
        have hcr := (argv_begin_reused_iff s argv envp rW eW hfin).mpr hrhs
        rw [hb] at hcr
        simp at hcr

/-- The oracle for the claim C2 executions: the respawn returns pid 9 with
pipe fds 5 and 6, and the fresh poll source handle is 8. -/
def c2o : SpawnOracle := ⟨some (9, 5, 6), 8⟩

/-- A spawner with a running dispatcher previously launched as `a` with
absent envp. -/
def c2s : SpawnState :=
  { pk_spawn_init with
    child_pid := 7
    stdin_fd := 3
    stdout_fd := 4
    poll_id := 2
    poll_alive := true
    last_argv0 := some ['a']
    last_envp := none }

/-- The state after the claim C2 counterexample launch blocked in its inner
graceful exit. -/
def c2s1 : SpawnState :=
  { c2s with
    is_changing_dispatcher := true
    is_sending_exit := true
    loop_running := true
    pending := PendingOp.launchWait [['a'], ['b']] none }

/-- The state after the old dispatcher is reaped during the counterexample
launch. -/
def c2s2 : SpawnState :=
  { c2s1 with
    poll_id := 0
    stdin_fd := -1
    stdout_fd := -1
    child_pid := -1
    exit := PkSpawnExitType.dispatcherChanged
    finished := true
    loop_running := false
    poll_alive := false }

/-- The state after the counterexample launch resumes and respawns. -/
def c2sF : SpawnState :=
  { c2s2 with
    is_sending_exit := false
    is_changing_dispatcher := false
    pending := PendingOp.idle
    finished := false
    child_pid := 9
    stdin_fd := 5
    stdout_fd := 6
    poll_id := 8
    poll_alive := true }

/-- Claim C2 counterexample to the claim as stated: a child is running and
both `argv[0]` and `envp` match the remembered values, yet because the stdin
write reports a short length the dispatcher is NOT reused — the launch takes
the graceful-exit path and a new process is spawned.  The claimed equivalence
"reuse ⟺ running ∧ argv[0] matches ∧ envp matches" is therefore false: the
right-hand side holds while no reuse occurs. -/
theorem claim_C2_counterexample :
    (c2s.stdin_fd ≠ -1 ∧
     egg_strequal c2s.last_argv0 ([['a'], ['b']].headD []) = true ∧
     egg_strvequal c2s.last_envp none = true) ∧
    mstep c2s (Label.launch [['a'], ['b']] none false true c2o) =
      some (c2s1, {}) ∧
    mstep c2s1 (Label.tick [] (some 0)) =
      some (c2s2, { lines := [],
                    exitEvent := some PkSpawnExitType.dispatcherChanged }) ∧
    mstep c2s2 (Label.launchResume c2o) =
      some (c2sF, { ret := some true, spawned := true }) := by
  refine ⟨⟨?_, ?_, ?_⟩, ?_, ?_, ?_⟩ <;> decide

/-- The output of a successful reuse, for the claim C2 witness. -/
def c2outReuse : StepOut := { ret := some true, reusedDispatcher := true }

/-- Claim C2 witness: the amended theorem applied to a concrete matching
launch whose stdin write succeeds. -/
theorem claim_C2_witness :
    c2s.finished = false ∧
    ((c2outReuse.reusedDispatcher = true ↔
      (c2s.stdin_fd ≠ -1 ∧
       egg_strequal c2s.last_argv0 ([['a'], ['b']].headD []) = true ∧
       egg_strvequal c2s.last_envp none = true ∧ true = true)) ∧
     (c2outReuse.reusedDispatcher = true →
       c2outReuse.spawned = false ∧ c2s = c2s) ∧
     (c2s.stdin_fd ≠ -1 → c2outReuse.reusedDispatcher = false →
       (c2s.pending = PendingOp.launchWait [['a'], ['b']] none ∧
        c2s.is_changing_dispatcher = true) ∨ c2outReuse.spawned = true)) :=
  ⟨rfl, claim_C2 c2s [['a'], ['b']] none true true c2o c2s c2outReuse rfl
    (by decide)⟩

/-- Claim C10: launching never touches the exit classification — both launch
phases preserve `exit` — while the respawn resets `finished` to false, and
`exit` is `unknown` only as set at construction. -/
theorem claim_C10 :
    (∀ s argv envp rW eW o s1 out,
       mstep s (Label.launch argv envp rW eW o) = some (s1, out) →
       s1.exit = s.exit) ∧
    (∀ s o s1 out,
       mstep s (Label.launchResume o) = some (s1, out) →
       s1.exit = s.exit ∧ s1.finished = false) ∧
    (∀ s argv envp rW eW o s1 out, s.stdin_fd = -1 →
       mstep s (Label.launch argv envp rW eW o) = some (s1, out) →
       s1.finished = false) ∧
    pk_spawn_init.exit = PkSpawnExitType.unknown := by
  refine ⟨?_, ?_, ?_, rfl⟩
  · intro s argv envp rW eW o s1 out h
    exact (mstep_launch_inv h).2.1
  · intro s o s1 out h
    have hR := mstep_launchResume_inv h
    exact ⟨hR.2.2.2.1, hR.2.2.2.2.1⟩
  · intro s argv envp rW eW o s1 out hstdin h
    have hpend : s.pending = PendingOp.idle := (mstep_launch_inv h).1
    by_cases hae : argv.isEmpty
    · simp [mstep, hpend, hae] at h
    · have hb : pk_spawn_argv_begin s argv envp rW eW = ArgvBeginRes.spawnNow s := by
        simp [pk_spawn_argv_begin, hstdin]
      rcases hsp : pk_spawn_argv_spawn s argv envp o with _ | ⟨s3, r⟩
      · simp [mstep, hpend, hae, hb, hsp] at h
      · simp [mstep, hpend, hae, hb, hsp] at h
        obtain ⟨h1, h2⟩ := h
        subst h1
        have hS := argv_spawn_facts hsp
        by_cases hr : r = true <;> simp_all

/-- The oracle for the claim C10 witness executions. -/
def c10o : SpawnOracle := ⟨some (9, 5, 6), 8⟩

/-- The output of a successful respawn, for the claim C10 witness. -/
def c10out : StepOut := { ret := some true, spawned := true }

/-- The state after launching `a` from a fresh spawner. -/
def c10s1 : SpawnState :=
  { pk_spawn_init with
    child_pid := 9
    stdin_fd := 5
    stdout_fd := 6
    poll_id := 8
    poll_alive := true
    last_argv0 := some ['a'] }

/-- A launch blocked in its inner graceful exit after the old child was
reaped (classification `dispatcherChanged`), ready to resume. -/
def c10w : SpawnState :=
  { pk_spawn_init with
    pending := PendingOp.launchWait [['a']] none
    is_sending_exit := true
    is_changing_dispatcher := true
    finished := true
    exit := PkSpawnExitType.dispatcherChanged }

/-- The state after the blocked launch of `c10w` resumes and respawns: the
classification left by the previous reap survives the relaunch. -/
def c10s2 : SpawnState :=
  { pk_spawn_init with
    child_pid := 9
    stdin_fd := 5
    stdout_fd := 6
    poll_id := 8
    poll_alive := true
    last_argv0 := some ['a']
    exit := PkSpawnExitType.dispatcherChanged }

/-- Claim C10 witness: the theorem applied to a concrete launch from a fresh
spawner and a concrete resumed launch carrying a `dispatcherChanged`
classification. -/
theorem claim_C10_witness :
    c10s1.exit = pk_spawn_init.exit ∧
    (c10s2.exit = c10w.exit ∧ c10s2.finished = false) ∧
    c10s1.finished = false ∧
    pk_spawn_init.exit = PkSpawnExitType.unknown :=
  ⟨claim_C10.1 pk_spawn_init [['a']] none true true c10o c10s1 c10out
     (by decide),
   claim_C10.2.1 c10w c10o c10s2 c10out (by decide),
   claim_C10.2.2.1 pk_spawn_init [['a']] none true true c10o c10s1 c10out rfl
     (by decide),
   rfl⟩

/-- Lift a per-step invariant to whole traces. -/
theorem runTrace_inv (P : SpawnState → Prop)
    (hstep : ∀ s l s1 out, mstep s l = some (s1, out) → P s → P s1) :
    ∀ (tr : List Label) (s0 s : SpawnState),
      runTrace s0 tr = some s → P s0 → P s := by
  intro tr
  induction tr with
  | nil =>
    intro s0 s h hp
    simp only [runTrace, Option.some.injEq] at h
    subst h
    exact hp
  | cons l ls ih =>
    intro s0 s h hp
    rcases hm : mstep s0 l with _ | ⟨s1, out⟩
    · simp [runTrace, hm] at h
    · simp only [runTrace, hm] at h
      exact ih s1 s h (hstep s0 l s1 out hm hp)

/-- The graceful-exit gate invariant — a blocked `pk_spawn_exit` whose nested
loop has been quit has a finished child — is preserved by every step. -/
theorem inv_gate_step (s : SpawnState) (l : Label) (s1 : SpawnState)
    (out : StepOut) (h : mstep s l = some (s1, out))
    (hs : s.pending = PendingOp.exitWait → s.loop_running = false →
      s.finished = true) :
    s1.pending = PendingOp.exitWait → s1.loop_running = false →
      s1.finished = true := by
  intro hp hl
  cases l with
  | launch argv envp rW eW o =>
    obtain ⟨-, -, -, -, -, -, hpor, -⟩ := mstep_launch_inv h
    rcases hpor with h1 | ⟨h1, -⟩ <;> rw [hp] at h1 <;> cases h1
  | launchResume o =>
    obtain ⟨-, -, hpi, -⟩ := mstep_launchResume_inv h
    rw [hpi] at hp
    cases hp
  | killOp rv t =>
    obtain ⟨h1, h2, h3, -⟩ := mstep_killOp_inv h
    rw [h1] at hp
    rw [h2] at hl
    rw [h3]
    exact hs hp hl
  | sigkillFire rv =>
    obtain ⟨-, -, h1, h2, h3, -⟩ := mstep_fire_inv h
    rw [h1] at hp
    rw [h2] at hl
    rw [h3]
    exact hs hp hl
  | exitCall w =>
    obtain ⟨-, -, -, -, -, -, -, -, -, hwait, -⟩ := mstep_exitCall_inv h
    have hres := hwait hp
    rw [hl] at hres
    cases hres.1
  | exitReturn =>
    obtain ⟨-, -, hseq, -⟩ := mstep_exitReturn_inv h
    rw [hseq] at hp
    cases hp
  | tick rb w =>
    obtain ⟨-, hpe, -, -, -, -, hfe, hnone, hsome, -⟩ := mstep_tick_inv h
    cases hf : s.finished with
    | true =>
      rw [hfe hf]
      exact hf
    | false =>
      cases w with
      | some st => exact (hsome hf st rfl).1
      | none =>
        obtain ⟨hf1, hl1, -, -, -, hp1⟩ := hnone hf rfl
        rw [hp1] at hp
        rw [hl1] at hl
        exact absurd (hs hp hl) (by simp [hf])

/-- Claim C7: (1) whenever the machine is reachable with a `pk_spawn_exit`
caller blocked and the nested loop already quit, the child has been reaped
(`finished` is true) — so the blocked `graceful_exit` with a successful
"exit" write returns only after the reap; (2) the return step itself is
enabled only in that situation and reports success; (3) the only step that
releases the running gate is a poll tick observing the child exited, and it
marks the child finished. -/
theorem claim_C7 :
    (∀ tr s, runTrace pk_spawn_init tr = some s →
       s.pending = PendingOp.exitWait → s.loop_running = false →
       s.finished = true) ∧
    (∀ s s1 out, mstep s Label.exitReturn = some (s1, out) →
       s.pending = PendingOp.exitWait ∧ s.loop_running = false ∧
       out = { ret := some true }) ∧
    (∀ s l s1 out, mstep s l = some (s1, out) →
       s.loop_running = true → s1.loop_running = false →
       (∃ rb st, l = Label.tick rb (some st)) ∧ s1.finished = true) := by
  refine ⟨?_, ?_, ?_⟩
  · intro tr s h
    refine runTrace_inv
      (fun x => x.pending = PendingOp.exitWait → x.loop_running = false →
        x.finished = true)
      (fun a la a1 o hm hp => inv_gate_step a la a1 o hm hp)
      tr pk_spawn_init s h ?_
    intro hp
    simp [pk_spawn_init] at hp
  · intro s s1 out h
    obtain ⟨h1, h2, -, h4⟩ := mstep_exitReturn_inv h
    exact ⟨h1, h2, h4⟩
  · intro s l s1 out h hl hl1
    cases l with
    | launch argv envp rW eW o =>
      obtain ⟨-, -, -, -, -, -, -, hmono⟩ := mstep_launch_inv h
      rw [hmono hl] at hl1
      cases hl1
    | launchResume o =>
      obtain ⟨-, hl0, -⟩ := mstep_launchResume_inv h
      rw [hl0] at hl
      cases hl
    | killOp rv t =>
      obtain ⟨-, h2, -⟩ := mstep_killOp_inv h
      rw [h2, hl] at hl1
      cases hl1
    | sigkillFire rv =>
      obtain ⟨-, -, -, h2, -⟩ := mstep_fire_inv h
      rw [h2, hl] at hl1
      cases hl1
    | exitCall w =>
      obtain ⟨-, -, -, -, -, -, -, -, hmono, -⟩ := mstep_exitCall_inv h
      rw [hmono hl] at hl1
      cases hl1
    | exitReturn =>
      obtain ⟨-, h2, -⟩ := mstep_exitReturn_inv h
      rw [h2] at hl
      cases hl
    | tick rb w =>
      obtain ⟨-, -, -, -, -, -, -, -, -, hdrop⟩ := mstep_tick_inv h
      have hd := hdrop hl hl1
      obtain ⟨st, hst⟩ := Option.isSome_iff_exists.mp hd.2.1
      exact ⟨⟨rb, st, by rw [hst]⟩, hd.2.2⟩

/-- The oracle for the claim C7 witness execution. -/
def c7o : SpawnOracle := ⟨some (9, 5, 6), 8⟩

/-- State after launching `a` from a fresh spawner (claim C7 witness). -/
def c7s1 : SpawnState :=
  { pk_spawn_init with
    child_pid := 9
    stdin_fd := 5
    stdout_fd := 6
    poll_id := 8
    poll_alive := true
    last_argv0 := some ['a'] }

/-- State blocked in `pk_spawn_exit` after a successful "exit" write. -/
def c7s2 : SpawnState :=
  { c7s1 with
    is_sending_exit := true
    loop_running := true
    pending := PendingOp.exitWait }

/-- State after the reap releases the gate: classified `dispatcherExit`. -/
def c7s3 : SpawnState :=
  { c7s2 with
    poll_id := 0
    stdin_fd := -1
    stdout_fd := -1
    child_pid := -1
    exit := PkSpawnExitType.dispatcherExit
    finished := true
    loop_running := false
    poll_alive := false }

/-- The reap-step output of the claim C7 witness execution. -/
def c7outT : StepOut :=
  { lines := [], exitEvent := some PkSpawnExitType.dispatcherExit }

/-- Claim C7 witness: the three parts of the theorem applied to the concrete
execution launch → graceful-exit call (write succeeds) → reap. -/
theorem claim_C7_witness :
    c7s3.finished = true ∧
    (c7s3.pending = PendingOp.exitWait ∧ c7s3.loop_running = false ∧
     ({ ret := some true } : StepOut) = { ret := some true }) ∧
    ((∃ rb st, Label.tick [] (some 0) = Label.tick rb (some st)) ∧
     c7s3.finished = true) :=
  ⟨claim_C7.1
     [Label.launch [['a']] none true true c7o, Label.exitCall true,
      Label.tick [] (some 0)]
     c7s3 (by decide) rfl rfl,
   claim_C7.2.1 c7s3
     { c7s3 with is_sending_exit := false, pending := PendingOp.idle }
     { ret := some true } (by decide),
   claim_C7.2.2 c7s2 (Label.tick [] (some 0)) c7s3 c7outT (by decide) rfl rfl⟩

/-- The SIGQUIT-precedence invariant — a live escalation timer or a sent
SIGKILL implies SIGQUIT was sent — is preserved by every step. -/
theorem inv_sig_step (s : SpawnState) (l : Label) (s1 : SpawnState)
    (out : StepOut) (h : mstep s l = some (s1, out))
    (hs : (s.kill_alive = true → s.sigquit_sent = true) ∧
      (s.sigkill_sent = true → s.sigquit_sent = true)) :
    (s1.kill_alive = true → s1.sigquit_sent = true) ∧
      (s1.sigkill_sent = true → s1.sigquit_sent = true) := by
  cases l with
  | launch argv envp rW eW o =>
    obtain ⟨-, -, hka, -, hsq, hsk, -⟩ := mstep_launch_inv h
    rw [hka, hsq, hsk]
    exact hs
  | launchResume o =>
    obtain ⟨-, -, -, -, -, -, hka, -, hsq, hsk⟩ := mstep_launchResume_inv h
    rw [hka, hsq, hsk]
    exact hs
  | killOp rv t =>
    obtain ⟨-, -, -, hsk, -, -, hsqmono, -, hkanew, hsqnew, -⟩ :=
      mstep_killOp_inv h
    constructor
    · intro ha
      by_cases hb : s.kill_alive = true
      · exact hsqmono (hs.1 hb)
      · exact hkanew ha (by simpa using hb)
    · intro hk
      rw [hsk] at hk
      exact hsqmono (hs.2 hk)
  | sigkillFire rv =>
    obtain ⟨halive, -, -, -, -, -, -, hsq, -⟩ := mstep_fire_inv h
    refine ⟨fun h1 => ?_, fun hk => ?_⟩ <;> rw [hsq] <;> exact hs.1 halive
  | exitCall w =>
    obtain ⟨-, -, hka, -, hsq, hsk, -⟩ := mstep_exitCall_inv h
    rw [hka, hsq, hsk]
    exact hs
  | exitReturn =>
    obtain ⟨-, -, hseq, -⟩ := mstep_exitReturn_inv h
    rw [hseq]
    exact hs
  | tick rb w =>
    obtain ⟨-, -, hsq, hsk, -, hkal, -⟩ := mstep_tick_inv h
    constructor
    · intro h1
      rw [hsq]
      exact hs.1 (hkal h1)
    · intro hk
      rw [hsq]
      rw [hsk] at hk
      exact hs.2 hk

/-- 1 when the SIGKILL timer source is live, else 0: the potential function
for counting timer firings. -/
def killAliveCount (s : SpawnState) : Nat := if s.kill_alive then 1 else 0

/-- Each step can fire the SIGKILL timer at most as often as `pk_spawn_kill`
calls arm it: firing consumes the (one-shot) source, only `killOp` creates
one. -/
theorem count_step (s : SpawnState) (l : Label) (s1 : SpawnState)
    (out : StepOut) (h : mstep s l = some (s1, out)) :
    (if isFireLabel l then 1 else 0) + killAliveCount s1 ≤
      (if isKillLabel l then 1 else 0) + killAliveCount s := by
  cases l with
  | killOp rv t =>
    have h2 : (if isFireLabel (Label.killOp rv t) then 1 else 0) = 0 := rfl
    have h3 : (if isKillLabel (Label.killOp rv t) then 1 else 0) = 1 := rfl
    rw [h2, h3]
    have h1 : killAliveCount s1 ≤ 1 := by
      unfold killAliveCount
      split_ifs <;> omega
    omega
  | sigkillFire rv =>
    obtain ⟨h1, h2, -⟩ := mstep_fire_inv h
    simp [isFireLabel, isKillLabel, killAliveCount, h1, h2]
  | launch argv envp rW eW o =>
    obtain ⟨-, -, hka, -⟩ := mstep_launch_inv h
    simp [isFireLabel, isKillLabel, killAliveCount, hka]
  | launchResume o =>
    obtain ⟨-, -, -, -, -, -, hka, -⟩ := mstep_launchResume_inv h
    simp [isFireLabel, isKillLabel, killAliveCount, hka]
  | exitCall w =>
    obtain ⟨-, -, hka, -⟩ := mstep_exitCall_inv h
    simp [isFireLabel, isKillLabel, killAliveCount, hka]
  | exitReturn =>
    obtain ⟨-, -, hseq, -⟩ := mstep_exitReturn_inv h
    simp [isFireLabel, isKillLabel, killAliveCount, hseq]
  | tick rb w =>
    obtain ⟨-, -, -, -, -, hkal, -⟩ := mstep_tick_inv h
    have h2 : (if isFireLabel (Label.tick rb w) then 1 else 0) = 0 := rfl
    have h3 : (if isKillLabel (Label.tick rb w) then 1 else 0) = 0 := rfl
    rw [h2, h3]
    have h4 : killAliveCount s1 ≤ killAliveCount s := by
      unfold killAliveCount
      by_cases h1 : s1.kill_alive = true
      · simp [h1, hkal h1]
      · simp [h1]
    omega

/-- The number of SIGKILL-timer firings along a trace is bounded by the
number of `pk_spawn_kill` calls. -/
theorem count_trace : ∀ (tr : List Label) (s0 s : SpawnState),
    runTrace s0 tr = some s →
    countFire tr + killAliveCount s ≤ countKill tr + killAliveCount s0 := by
  intro tr
  induction tr with
  | nil =>
    intro s0 s h
    simp only [runTrace, Option.some.injEq] at h
    subst h
    simp [countFire, countKill]
  | cons l ls ih =>
    intro s0 s h
    rcases hm : mstep s0 l with _ | ⟨s1, out⟩
    · simp [runTrace, hm] at h
    · simp only [runTrace, hm] at h
      have hc := count_step s0 l s1 out hm
      have ht := ih s1 s h
      simp only [countFire, countKill, List.countP_cons] at ht ⊢
      split_ifs at hc ⊢ <;> omega

/-- Claim C8: in every execution from a fresh spawner, (1) SIGKILL is sent
only after SIGQUIT was sent, and the one-shot escalation timer never fires
more often than `pk_spawn_kill` arms it (in particular a given arming fires
at most once, since each firing consumes the source); (2) a firing that
actually sends SIGKILL finds the child not yet finished and SIGQUIT already
sent. -/
theorem claim_C8 :
    (∀ tr s, runTrace pk_spawn_init tr = some s →
       (s.sigkill_sent = true → s.sigquit_sent = true) ∧
       countFire tr ≤ countKill tr) ∧
    (∀ tr s rv s1 out, runTrace pk_spawn_init tr = some s →
       mstep s (Label.sigkillFire rv) = some (s1, out) →
       s.sigkill_sent = false → s1.sigkill_sent = true →
       s.finished = false ∧ s.sigquit_sent = true) := by
  have hinv : ∀ tr s, runTrace pk_spawn_init tr = some s →
      (s.kill_alive = true → s.sigquit_sent = true) ∧
      (s.sigkill_sent = true → s.sigquit_sent = true) := by
    intro tr s h
    refine runTrace_inv
      (fun x => (x.kill_alive = true → x.sigquit_sent = true) ∧
        (x.sigkill_sent = true → x.sigquit_sent = true))
      (fun a la a1 o hm hp => inv_sig_step a la a1 o hm hp)
      tr pk_spawn_init s h ?_
    constructor <;> intro hq <;> simp [pk_spawn_init] at hq
  constructor
  · intro tr s h
    refine ⟨(hinv tr s h).2, ?_⟩
    have hc := count_trace tr pk_spawn_init s h
    have h0 : killAliveCount pk_spawn_init = 0 := rfl
    have h1 : 0 ≤ killAliveCount s := Nat.zero_le _
    omega
  · intro tr s rv s1 out h hm hpre hpost
    obtain ⟨halive, -, -, -, -, -, -, -, hsknew, -⟩ := mstep_fire_inv hm
    have hq := (hinv tr s h).1 halive
    rcases hsknew hpost with hcase | hcase
    · rw [hpre] at hcase
      cases hcase
    · exact ⟨hcase, hq⟩

/-- State after a `pk_spawn_kill` call from a fresh spawner: SIGQUIT sent,
escalation timer armed. -/
def c8s : SpawnState :=
  { pk_spawn_init with
    exit := PkSpawnExitType.sigquit
    kill_id := 3
    sigquit_sent := true
    kill_alive := true }

/-- State after the armed escalation timer fires on the unfinished child. -/
def c8s1 : SpawnState :=
  { c8s with
    exit := PkSpawnExitType.sigkill
    kill_alive := false
    sigkill_sent := true }

/-- Claim C8 witness: the theorem applied to the concrete one-kill trace and
the concrete timer firing after it. -/
theorem claim_C8_witness :
    ((c8s.sigkill_sent = true → c8s.sigquit_sent = true) ∧
     countFire [Label.killOp 0 3] ≤ countKill [Label.killOp 0 3]) ∧
    (c8s.finished = false ∧ c8s.sigquit_sent = true) :=
  ⟨claim_C8.1 [Label.killOp 0 3] c8s (by decide),
   claim_C8.2 [Label.killOp 0 3] c8s 0 c8s1 {} (by decide) (by decide) rfl rfl⟩

/-- Any step other than a launch leaves a finished, idle spawner finished and
idle: `kill`, ticks, timer firings and `pk_spawn_exit` calls after `finished`
have no lasting effect on these fields. -/
theorem nonlaunch_preserves (s : SpawnState) (l : Label) (s1 : SpawnState)
    (out : StepOut) (h : mstep s l = some (s1, out))
    (hl : isLaunchLabel l = false)
    (h1 : s.finished = true) (h2 : s.is_sending_exit = false)
    (h3 : s.pending = PendingOp.idle) :
    s1.finished = true ∧ s1.is_sending_exit = false ∧
    s1.pending = PendingOp.idle := by
  cases l with
  | launch argv envp rW eW o => simp [isLaunchLabel] at hl
  | launchResume o => simp [isLaunchLabel] at hl
  | killOp rv t =>
    obtain ⟨hp, -, hf, -, -, hsnd, -⟩ := mstep_killOp_inv h
    rw [hp, hf, hsnd]
    exact ⟨h1, h2, h3⟩
  | sigkillFire rv =>
    obtain ⟨-, -, hp, -, hf, hsnd, -⟩ := mstep_fire_inv h
    rw [hp, hf, hsnd]
    exact ⟨h1, h2, h3⟩
  | exitCall w =>
    obtain ⟨-, -, -, -, -, -, -, -, -, -, -, -, -, hfinc⟩ := mstep_exitCall_inv h
    rw [(hfinc h1 h2).1]
    exact ⟨h1, h2, h3⟩
  | exitReturn =>
    obtain ⟨hpe, -⟩ := mstep_exitReturn_inv h
    rw [h3] at hpe
    cases hpe
  | tick rb w =>
    obtain ⟨-, -, -, -, -, -, hfe, -⟩ := mstep_tick_inv h
    rw [hfe h1]
    exact ⟨h1, h2, h3⟩

/-- Trace closure of `nonlaunch_preserves`. -/
theorem nonlaunch_preserves_trace : ∀ (tr : List Label) (s0 s : SpawnState),
    runTrace s0 tr = some s → (∀ l ∈ tr, isLaunchLabel l = false) →
    s0.finished = true → s0.is_sending_exit = false →
    s0.pending = PendingOp.idle →
    s.finished = true ∧ s.is_sending_exit = false ∧
    s.pending = PendingOp.idle := by
  intro tr
  induction tr with
  | nil =>
    intro s0 s h hnl h1 h2 h3
    simp only [runTrace, Option.some.injEq] at h
    subst h
    exact ⟨h1, h2, h3⟩
  | cons l ls ih =>
    intro s0 s h hnl h1 h2 h3
    rcases hm : mstep s0 l with _ | ⟨s1, out⟩
    · simp [runTrace, hm] at h
    · simp only [runTrace, hm] at h
      obtain ⟨g1, g2, g3⟩ := nonlaunch_preserves s0 l s1 out hm
        (hnl l (List.mem_cons_self l ls)) h1 h2 h3
      exact ih s1 s h (fun x hx => hnl x (List.mem_cons_of_mem l hx)) g1 g2 g3

/-- Claim C9: two successive `graceful_exit` calls with no intervening
launch.  The first call's "exit" write succeeds and the child is reaped while
it blocks: the first call returns success.  After any further non-launch
steps, the second call returns failure and leaves the state completely
unchanged, because the child has already finished. -/
theorem claim_C9 (s0 : SpawnState) (rb : List Char) (st : Nat)
    (s1 s2 s3 s4 s5 : SpawnState) (o1 o2 o3 o5 : StepOut)
    (tr : List Label) (w : Bool)
    (hidle : s0.pending = PendingOp.idle)
    (hsend : s0.is_sending_exit = false)
    (hfin : s0.finished = false)
    (h1 : mstep s0 (Label.exitCall true) = some (s1, o1))
    (h2 : mstep s1 (Label.tick rb (some st)) = some (s2, o2))
    (h3 : mstep s2 Label.exitReturn = some (s3, o3))
    (h4 : runTrace s3 tr = some s4)
    (hnl : ∀ l ∈ tr, isLaunchLabel l = false)
    (h5 : mstep s4 (Label.exitCall w) = some (s5, o5)) :
    o3.ret = some true ∧ o5.ret = some false ∧ s5 = s4 := by
  obtain ⟨-, -, -, -, -, -, -, -, -, -, -, hblock, -, -⟩ := mstep_exitCall_inv h1
  have hs1eq := hblock hfin hsend rfl
  have hs1fin : s1.finished = false := by
    rw [hs1eq]
    exact hfin
  obtain ⟨-, -, -, -, -, -, -, -, hsome, -⟩ := mstep_tick_inv h2
  have h2f := hsome hs1fin st rfl
  obtain ⟨-, -, hs3eq, ho3⟩ := mstep_exitReturn_inv h3
  have hs3f : s3.finished = true := by
    rw [hs3eq]
    exact h2f.1
  have hs3s : s3.is_sending_exit = false := by rw [hs3eq]
  have hs3p : s3.pending = PendingOp.idle := by rw [hs3eq]
  obtain ⟨g1, g2, -⟩ := nonlaunch_preserves_trace tr s3 s4 h4 hnl hs3f hs3s hs3p
  obtain ⟨-, -, -, -, -, -, -, -, -, -, -, -, -, hfinc⟩ := mstep_exitCall_inv h5
  have h5eq := hfinc g1 g2
  exact ⟨by rw [ho3], h5eq.2, h5eq.1⟩

/-- A spawner with a running dispatcher, for the claim C9 witness. -/
def c9s0 : SpawnState :=
  { pk_spawn_init with
    child_pid := 9
    stdin_fd := 5
    stdout_fd := 6
    poll_id := 8
    poll_alive := true
    last_argv0 := some ['a'] }

/-- `c9s0` blocked in its first `graceful_exit` call. -/
def c9s1 : SpawnState :=
  { c9s0 with
    is_sending_exit := true
    loop_running := true
    pending := PendingOp.exitWait }

/-- `c9s1` after the reap released the gate. -/
def c9s2 : SpawnState :=
  { c9s1 with
    poll_id := 0
    stdin_fd := -1
    stdout_fd := -1
    child_pid := -1
    exit := PkSpawnExitType.dispatcherExit
    finished := true
    loop_running := false
    poll_alive := false }

/-- `c9s2` after the first `graceful_exit` call returned. -/
def c9s3 : SpawnState :=
  { c9s2 with
    is_sending_exit := false
    pending := PendingOp.idle }

/-- The reap-step output in the claim C9 witness execution. -/
def c9o2 : StepOut :=
  { lines := [], exitEvent := some PkSpawnExitType.dispatcherExit }

/-- The first call's return output in the claim C9 witness execution. -/
def c9o3 : StepOut := { ret := some true }

/-- The second call's output in the claim C9 witness execution. -/
def c9o5 : StepOut := { ret := some false }

/-- Claim C9 witness: the theorem applied to the concrete execution — first
`graceful_exit` blocks, the tick reaps, the call returns true; the second
`graceful_exit` immediately afterwards returns false with the state
unchanged. -/
theorem claim_C9_witness :
    c9o3.ret = some true ∧ c9o5.ret = some false ∧ c9s3 = c9s3 :=
  claim_C9 c9s0 [] 0 c9s1 c9s2 c9s3 c9s3 c9s3 {} c9o2 c9o3 c9o5 [] true
    rfl rfl rfl (by decide) (by decide) (by decide) rfl (by simp)
    (by decide)
